import Mathlib

/-!
Verification of the pluggable cryptographic provider runtime
(dispatch-table digest adapter, generic method fetch, digest-context
lifecycle, and the DH key-exchange provider) against its design
specification.

The C sources are shallowly embedded: machine `unsigned int` / `size_t`
arithmetic is `Nat` with explicit `% 2 ^ 32` where overflow can occur,
function pointers are opaque `Nat` handles (a `none` slot is a NULL
pointer), out-parameters become record fields of the result, and
provider-supplied callbacks are an explicit environment argument.
-/

namespace OpenSSLSpec

/-! ## Stable numeric ABI constants (include/openssl/core_numbers.h) -/

def OSSL_OP_DIGEST : Nat := 1
def OSSL_OP_KEYEXCH : Nat := 11

def OSSL_FUNC_DIGEST_NEWCTX : Nat := 1
def OSSL_FUNC_DIGEST_INIT : Nat := 2
def OSSL_FUNC_DIGEST_UPDATE : Nat := 3
def OSSL_FUNC_DIGEST_FINAL : Nat := 4
def OSSL_FUNC_DIGEST_DIGEST : Nat := 5
def OSSL_FUNC_DIGEST_FREECTX : Nat := 6
def OSSL_FUNC_DIGEST_DUPCTX : Nat := 7
def OSSL_FUNC_DIGEST_SIZE : Nat := 8
def OSSL_FUNC_DIGEST_BLOCK_SIZE : Nat := 9
def OSSL_FUNC_DIGEST_SET_PARAMS : Nat := 10
def OSSL_FUNC_DIGEST_GET_PARAMS : Nat := 11

/-! ## Method identity (crypto/evp/evp_fetch.c, `method_id`)

The C function takes two `unsigned int` arguments (32-bit); the left
shift wraps modulo `2 ^ 32`.  `ossl_assert(e)` evaluates to the truth
value of `e` in a release build, so a failed assertion makes the
function return 0. -/

/-- Shallow embedding of `method_id` from crypto/evp/evp_fetch.c:

    if (!ossl_assert(name_id < (1 << 24) || operation_id < (1 << 8))
        || !ossl_assert(name_id > 0 && operation_id > 0))
        return 0;
    return ((name_id << 8) & 0xFFFFFF00) | (operation_id & 0x000000FF);
-/
def method_id (operation_id name_id : Nat) : Nat :=
  if ¬ (name_id < 2 ^ 24 ∨ operation_id < 2 ^ 8) then 0
  else if ¬ (name_id > 0 ∧ operation_id > 0) then 0
  else ((name_id <<< 8) % 2 ^ 32 &&& 0xFFFFFF00) ||| (operation_id &&& 0xFF)

/-! ## Generic fetch (crypto/evp/evp_fetch.c, `evp_generic_fetch`)

The method store, the name map and `ossl_method_construct` live outside
the given sources; they are modelled from the spec below.  Method
records are opaque `Nat` handles; their reference counts are carried in
the library-context state. -/

/-- Modelled from the spec: the name map (§4.1, `ossl_namemap_name2num`,
crypto/core_namemap.c is not among the sources).  Names are interned
append-only; the id of a name is its position + 1 and `0` denotes
"unknown". -/
def name2num (nm : List String) (name : String) : Nat :=
  match nm with
  | [] => 0
  | s :: rest =>
    if s = name then 1
    else match name2num rest name with
      | 0 => 0
      | k => k + 1

/-- Modelled from the spec: query-cache lookup of the method store
(§4.4, `ossl_method_store_cache_get`), keyed by `(method_id, query)`. -/
def cache_get (c : List ((Nat × String) × Nat)) (methid : Nat)
    (props : String) : Option Nat :=
  (c.find? (fun e => e.1.1 = methid ∧ e.1.2 = props)).map (fun e => e.2)

/-- Modelled from the spec: query-cache insertion
(§4.4, `ossl_method_store_cache_set`).  A new binding shadows any older
binding for the same key. -/
def cache_set (c : List ((Nat × String) × Nat)) (methid : Nat)
    (props : String) (m : Nat) : List ((Nat × String) × Nat) :=
  ((methid, props), m) :: c

/-- Reference-count table for method records, as an association list
defaulting to 0. -/
def lookupRef (rc : List (Nat × Nat)) (m : Nat) : Nat :=
  match rc.find? (fun e => e.1 = m) with
  | some e => e.2
  | none => 0

/-- A refcount up-ref (`up_ref_method` callback) on record `m`. -/
def bumpRef (rc : List (Nat × Nat)) (m : Nat) : List (Nat × Nat) :=
  match rc with
  | [] => [(m, 1)]
  | e :: rest => if e.1 = m then (e.1, e.2 + 1) :: rest
                 else e :: bumpRef rest m

/-- The per-library-context state seen by `evp_generic_fetch`: the name
map, the default method store's query cache, and the refcount table of
the method records. -/
structure FetchState where
  namemap : List String
  cache : List ((Nat × String) × Nat)
  refcnt : List (Nat × Nat)
deriving DecidableEq

/-- Modelled from the spec: `ossl_method_construct` (§4.5,
crypto/core_fetch.c is not among the sources).  The providers'
algorithms for the requested operation are abstracted as an association
list `avail` from algorithm name to the record the adapter builds for
it.  On success the constructor registers the name in the name map
(`put_method_in_store` → `ossl_namemap_add`) and hands the caller a
record with one reference added (§5 refcount discipline: every handoff
out of the runtime ships with a +1 reference).  Property-based
candidate selection among several providers is abstracted away: the
first matching algorithm wins. -/
def ossl_method_construct (st : FetchState) (name : String)
    (avail : List (String × Nat)) : Option Nat × FetchState :=
  match avail.find? (fun a => a.1 = name) with
  | none => (none, st)
  | some a =>
      let nm := if name2num st.namemap name = 0
                then st.namemap ++ [name] else st.namemap
      (some a.2, { st with namemap := nm, refcnt := bumpRef st.refcnt a.2 })

/-- Shallow embedding of `evp_generic_fetch` from crypto/evp/evp_fetch.c.
The default store and the name map are part of `st` (their NULL checks
cannot fail in the model); the `new_method`/`up_ref_method`/
`free_method` callbacks are realised by the construction model and
`bumpRef`.  The C routine:
  - returns NULL when `ossl_assert(operation_id > 0)` fails;
  - computes `nameid`; a known name with `method_id` 0 is an error;
  - on a cache miss (or unknown name) runs `ossl_method_construct` and,
    on success, re-derives the method id and populates the cache;
  - on a cache hit up-refs the cached record. -/
def evp_generic_fetch (st : FetchState) (operation_id : Int)
    (name props : String) (avail : List (String × Nat)) :
    Option Nat × FetchState :=
  if ¬ (operation_id > 0) then (none, st)
  else
    let nameid := name2num st.namemap name
    let methid := method_id operation_id.toNat nameid
    if nameid ≠ 0 ∧ methid = 0 then (none, st)
    else
      match (if nameid = 0 then none else cache_get st.cache methid props) with
      | none =>
          match ossl_method_construct st name avail with
          | (none, st1) => (none, st1)
          | (some m, st1) =>
              let nameid1 := name2num st1.namemap name
              let methid1 := method_id operation_id.toNat nameid1
              (some m, { st1 with cache := cache_set st1.cache methid1 props m })
      | some m => (some m, { st with refcnt := bumpRef st.refcnt m })

/-! ## The digest adapter (crypto/evp/digest.c, `evp_md_from_dispatch`)

A dispatch table is a zero-terminated array of `(function_id, pointer)`
entries; the adapter decodes it into the typed slots of an `EVP_MD`
record, counting how many of the five core slots
{newctx, init, update, final, freectx} it saw. -/

/-- A dispatch-table entry (`OSSL_DISPATCH`); the function pointer is an
opaque non-null handle. -/
structure OSSL_DISPATCH where
  function_id : Nat
  fn : Nat
deriving DecidableEq

/-- The decoded digest method record (`EVP_MD`, provider branch).
Slots hold the copied function pointers; `none` is a NULL slot.  The
legacy-only fields that the modelled functions touch (`final`,
`cleanup`, `ctx_size`) are carried as well; fields never read by the
embedded functions are omitted. -/
structure EVP_MD where
  name : String
  prov : Bool
  newctx : Option Nat
  dinit : Option Nat
  dupdate : Option Nat
  dfinal : Option Nat
  digest : Option Nat
  freectx : Option Nat
  dupctx : Option Nat
  size : Option Nat
  dblock_size : Option Nat
  set_params : Option Nat
  get_params : Option Nat
  final : Option Nat
  cleanup : Option Nat
  ctx_size : Nat
deriving DecidableEq

/-- `EVP_MD_meth_new`: a freshly allocated, zeroed method record
carrying the duplicated algorithm name. -/
def EVP_MD_meth_new (name : String) : EVP_MD :=
  { name := name, prov := false, newctx := none, dinit := none,
    dupdate := none, dfinal := none, digest := none, freectx := none,
    dupctx := none, size := none, dblock_size := none,
    set_params := none, get_params := none, final := none,
    cleanup := none, ctx_size := 0 }

/-- One iteration of the decoding switch in `evp_md_from_dispatch`: a
slot is filled only on its first occurrence, and only the five core
slots (NEWCTX = 1, INIT = 2, UPDATE = 3, FINAL = 4, FREECTX = 6) bump
`fncnt`; DIGEST (5) is stand-alone and DUPCTX (7), SIZE (8),
BLOCK_SIZE (9), SET_PARAMS (10), GET_PARAMS (11) are optional.  Unknown
function ids are ignored (the C switch has no default). -/
def md_dispatch_case (md : EVP_MD) (fncnt : Nat) (e : OSSL_DISPATCH) :
    EVP_MD × Nat :=
  match e.function_id with
  | 1 =>
    if md.newctx = none then ({ md with newctx := some e.fn }, fncnt + 1)
    else (md, fncnt)
  | 2 =>
    if md.dinit = none then ({ md with dinit := some e.fn }, fncnt + 1)
    else (md, fncnt)
  | 3 =>
    if md.dupdate = none then ({ md with dupdate := some e.fn }, fncnt + 1)
    else (md, fncnt)
  | 4 =>
    if md.dfinal = none then ({ md with dfinal := some e.fn }, fncnt + 1)
    else (md, fncnt)
  | 5 =>
    if md.digest = none then ({ md with digest := some e.fn }, fncnt)
    else (md, fncnt)
  | 6 =>
    if md.freectx = none then ({ md with freectx := some e.fn }, fncnt + 1)
    else (md, fncnt)
  | 7 =>
    if md.dupctx = none then ({ md with dupctx := some e.fn }, fncnt)
    else (md, fncnt)
  | 8 =>
    if md.size = none then ({ md with size := some e.fn }, fncnt)
    else (md, fncnt)
  | 9 =>
    if md.dblock_size = none then ({ md with dblock_size := some e.fn }, fncnt)
    else (md, fncnt)
  | 10 =>
    if md.set_params = none then ({ md with set_params := some e.fn }, fncnt)
    else (md, fncnt)
  | 11 =>
    if md.get_params = none then ({ md with get_params := some e.fn }, fncnt)
    else (md, fncnt)
  | _ => (md, fncnt)

/-- The decoding loop `for (; fns->function_id != 0; fns++)`. -/
def md_from_dispatch_loop : List OSSL_DISPATCH → EVP_MD → Nat → EVP_MD × Nat
  | [], md, fncnt => (md, fncnt)
  | e :: fns, md, fncnt =>
    if e.function_id = 0 then (md, fncnt)
    else
      let s := md_dispatch_case md fncnt e
      md_from_dispatch_loop fns s.1 s.2

/-- Shallow embedding of `evp_md_from_dispatch`: decode the table, then
apply the consistency check

    if ((fncnt != 0 && fncnt != 5)
        || (fncnt == 0 && md->digest == NULL)
        || md->size == NULL)

returning None (and freeing the partial record) on violation; on
success the provider back-reference is installed (and up-refed). -/
def evp_md_from_dispatch (name : String) (fns : List OSSL_DISPATCH)
    (prov : Bool) : Option EVP_MD :=
  let r := md_from_dispatch_loop fns (EVP_MD_meth_new name) 0
  if (r.2 ≠ 0 ∧ r.2 ≠ 5) ∨ (r.2 = 0 ∧ r.1.digest = none) ∨ r.1.size = none
  then none
  else some { r.1 with prov := prov }

/-- A dispatch table "supplies" a function id when an entry with that id
occurs before the zero terminator. -/
def suppliesFn (fns : List OSSL_DISPATCH) (id : Nat) : Bool :=
  (fns.takeWhile (fun e => e.function_id ≠ 0)).any
    (fun e => e.function_id = id)

/-- Indicator of a filled slot. -/
def slotInd (o : Option Nat) : Nat := if o = none then 0 else 1

/-- How many of the five core slots of `md` are filled. -/
def five_set (md : EVP_MD) : Nat :=
  slotInd md.newctx + slotInd md.dinit + slotInd md.dupdate +
    slotInd md.dfinal + slotInd md.freectx

/-! ## Digest contexts (crypto/evp/digest.c)

The envelope state machine for digests.  Provider callbacks (`dupdate`,
`dfinal`, the `size` accessor, and the legacy `ctx->update` /
`md->final` slots) mutate only opaque state behind their own pointers,
never the `EVP_MD_CTX` record itself, so the environment interprets a
pointer as a pure result function.  A `none` outcome of an envelope
operation is the undefined behaviour of calling a NULL function pointer
(or a failed `OPENSSL_assert`). -/

def EVP_MD_CTX_FLAG_ONESHOT : Nat := 0x0001
def EVP_MD_CTX_FLAG_CLEANED : Nat := 0x0002
def EVP_MD_CTX_FLAG_REUSE : Nat := 0x0004
def UINT_MAX : Nat := 2 ^ 32 - 1
def EVP_MAX_MD_SIZE : Nat := 64

/-- The digest context (`EVP_MD_CTX`, internal/evp_int.h): the bound
method, the strong reference from fetching, the opaque per-context
provider state `provctx`, the optional pkey context, and the legacy
fields (`md_data` working memory, cached legacy `update` pointer,
engine handle, flags). -/
structure EVP_MD_CTX where
  reqdigest : Option EVP_MD
  digest : Option EVP_MD
  fetched_digest : Option EVP_MD
  provctx : Option Nat
  pctx : Option Nat
  md_data : Option Nat
  update : Option Nat
  engine : Option Nat
  flags : Nat
deriving DecidableEq

/-- `EVP_MD_CTX_new`: `OPENSSL_zalloc`, so every field is zero/NULL. -/
def EVP_MD_CTX_new : EVP_MD_CTX :=
  { reqdigest := none, digest := none, fetched_digest := none,
    provctx := none, pctx := none, md_data := none, update := none,
    engine := none, flags := 0 }

/-- Shallow embedding of `EVP_MD_CTX_reset` (the NULL-context early
return is omitted: we model live contexts).  On the provider path the
opaque provider state is freed through the freectx slot and `provctx`
nulled, setting the CLEANED flag; a lingering pkey context falls
through to the legacy branch.  The legacy branch ends in
`OPENSSL_cleanse(ctx, sizeof(*ctx))`, so the context comes back
all-zero; its other effects (cleanup callback, freeing `md_data`,
`pctx`, the engine) happen behind pointers that the cleanse wipes
anyway. -/
def EVP_MD_CTX_reset (ctx : EVP_MD_CTX) : EVP_MD_CTX × Nat :=
  match ctx.digest with
  | some d =>
    if d.prov then
      let ctx1 := if ctx.provctx ≠ none then
          { ctx with provctx := none,
                     flags := ctx.flags ||| EVP_MD_CTX_FLAG_CLEANED }
        else ctx
      if ctx1.pctx ≠ none then (EVP_MD_CTX_new, 1) else (ctx1, 1)
    else (EVP_MD_CTX_new, 1)
  | none => (EVP_MD_CTX_new, 1)

/-- The provider-side semantics of the opaque function pointers the
digest envelope may call: each field interprets a pointer value.
`dfinalCall` returns `(ret, *size written, digest bytes written)`;
`legacyFinalCall` returns `(ret, digest bytes)`. -/
structure ProvEnv where
  dupdateCall : Nat → Option Nat → List Nat → Nat → Nat
  dfinalCall : Nat → Option Nat → Nat → Nat × Nat × List Nat
  sizeCall : Nat → Nat
  legacyUpdateCall : Nat → EVP_MD_CTX → List Nat → Nat → Nat
  legacyFinalCall : Nat → EVP_MD_CTX → Nat × List Nat

/-- Modelled from the spec: `EVP_MD_size` (not among the sources)
queries the method's size slot through the provider.  A NULL digest or
a NULL size slot yields 0 here; no claim depends on that path. -/
def EVP_MD_size (env : ProvEnv) (md : Option EVP_MD) : Nat :=
  match md with
  | some d =>
    match d.size with
    | some p => env.sizeCall p
    | none => 0
  | none => 0

/-- The `legacy:` tail of `EVP_DigestUpdate`:
`return ctx->update(ctx, data, count);` — calling a NULL `update` slot
(a context that never saw a successful legacy init) is undefined
behaviour. -/
def EVP_DigestUpdate_legacy (env : ProvEnv) (ctx : EVP_MD_CTX)
    (data : List Nat) (count : Nat) : Option (Nat × EVP_MD_CTX) :=
  match ctx.update with
  | none => none
  | some p => some (env.legacyUpdateCall p ctx data count, ctx)

/-- Shallow embedding of `EVP_DigestUpdate`. -/
def EVP_DigestUpdate (env : ProvEnv) (ctx : EVP_MD_CTX) (data : List Nat)
    (count : Nat) : Option (Nat × EVP_MD_CTX) :=
  if count = 0 then some (1, ctx)
  else
    match ctx.digest with
    | some d =>
      if d.prov then
        match d.dupdate with
        | none => some (0, ctx)
        | some p => some (env.dupdateCall p ctx.provctx data count, ctx)
      else EVP_DigestUpdate_legacy env ctx data count
    | none => EVP_DigestUpdate_legacy env ctx data count

/-- Result of a finalisation: the return value, the value written to
`*isize` (if any), the digest bytes written to `md`, and the context
after the call. -/
structure FinalResult where
  ret : Nat
  isize : Option Nat
  out : List Nat
  ctx : EVP_MD_CTX
deriving DecidableEq

/-- The `legacy:` tail of `EVP_DigestFinal_ex`:
`OPENSSL_assert(mdsize <= EVP_MAX_MD_SIZE)` aborts on oversized
digests; `ctx->digest->final(ctx, md)` through a NULL slot is undefined
behaviour; a cleanup slot sets the CLEANED flag; the final
`OPENSSL_cleanse(ctx->md_data, ...)` wipes buffer contents only. -/
def EVP_DigestFinal_legacy (env : ProvEnv) (ctx : EVP_MD_CTX) (d : EVP_MD)
    (mdsize : Nat) (isizeNull : Bool) : Option FinalResult :=
  if mdsize > EVP_MAX_MD_SIZE then none
  else
    match d.final with
    | none => none
    | some p =>
      let r := env.legacyFinalCall p ctx
      let ctx1 := if d.cleanup ≠ none then
          { ctx with flags := ctx.flags ||| EVP_MD_CTX_FLAG_CLEANED }
        else ctx
      some { ret := r.1, isize := if isizeNull then none else some mdsize,
             out := r.2, ctx := ctx1 }

/-- Shallow embedding of `EVP_DigestFinal_ex`.  On the provider path a
NULL `dfinal` slot is a plain error; otherwise the provider final runs,
the written size is copied to `*isize` when it fits an `unsigned int`
(else the call is turned into a failure), and the context is reset
before returning on both paths. -/
def EVP_DigestFinal_ex (env : ProvEnv) (ctx : EVP_MD_CTX)
    (isizeNull : Bool) : Option FinalResult :=
  let mdsize := EVP_MD_size env ctx.digest
  match ctx.digest with
  | some d =>
    if d.prov then
      match d.dfinal with
      | none => some { ret := 0, isize := none, out := [], ctx := ctx }
      | some p =>
        let r := env.dfinalCall p ctx.provctx mdsize
        let ri := if isizeNull then (r.1, none)
                  else if r.2.1 ≤ UINT_MAX then (r.1, some r.2.1)
                  else (0, none)
        some { ret := ri.1, isize := ri.2, out := r.2.2,
               ctx := (EVP_MD_CTX_reset ctx).1 }
    else EVP_DigestFinal_legacy env ctx d mdsize isizeNull
  | none => none

/-- A concrete provider-backed digest method used by witnesses: the
five core slots, size, and a provider back-reference. -/
def sampleMD : EVP_MD :=
  { name := "SHA-256", prov := true, newctx := some 11, dinit := some 12,
    dupdate := some 13, dfinal := some 14, digest := none,
    freectx := some 16, dupctx := none, size := some 18,
    dblock_size := none, set_params := none, get_params := none,
    final := none, cleanup := none, ctx_size := 0 }

/-- A concrete provider-path digest context: `sampleMD` bound and
fetched, live provider state, no pkey context. -/
def sampleCtx : EVP_MD_CTX :=
  { reqdigest := none, digest := some sampleMD,
    fetched_digest := some sampleMD, provctx := some 7, pctx := none,
    md_data := none, update := none, engine := none, flags := 0 }

/-- A concrete provider environment whose final writes a 32-byte-sized
digest. -/
def sampleEnv : ProvEnv :=
  { dupdateCall := fun _ _ _ _ => 1,
    dfinalCall := fun _ _ _ => (1, 32, [0xba, 0x78]),
    sizeCall := fun _ => 32,
    legacyUpdateCall := fun _ _ _ _ => 1,
    legacyFinalCall := fun _ _ => (1, []) }

/-- A provider environment whose final reports a size above
`UINT_MAX`, driving the overflow-failure path of
`EVP_DigestFinal_ex`. -/
def hugeEnv : ProvEnv :=
  { dupdateCall := fun _ _ _ _ => 1,
    dfinalCall := fun _ _ _ => (1, 2 ^ 40, []),
    sizeCall := fun _ => 32,
    legacyUpdateCall := fun _ _ _ _ => 1,
    legacyFinalCall := fun _ _ => (1, []) }

/-! ## DH key exchange (providers/default/dh_kex.c style consumer)

The DH structure, `DH_size` and `DH_compute_key`/`DH_compute_key_padded`
live outside the given sources and are modelled from the spec: the
secret is the big-endian encoding of `pub ^ priv mod p`, stripped of
leading zero bytes by `DH_compute_key` (whose return value is the
stripped byte count, 0 meaning failure) and left-padded with zero bytes
to the full modulus size by `DH_compute_key_padded`. -/

/-- A DH key: modulus, generator, private exponent, public value.  The
local key supplies `p` and `priv`; the peer key supplies `pub`
(`DH_get0_key(dhpeer, &pub_key, NULL)`). -/
structure DH where
  p : Nat
  g : Nat
  priv : Nat
  pub : Nat
deriving DecidableEq

/-- Fuel-driven byte length: the fuel only bounds the recursion depth
(the number itself suffices), keeping the function structural so that
it evaluates by kernel reduction. -/
def numBytesAux : Nat → Nat → Nat
  | _, 0 => 0
  | 0, _ + 1 => 1
  | fuel + 1, n + 1 => numBytesAux fuel ((n + 1) / 256) + 1

/-- Modelled from the spec: `BN_num_bytes` — the big-endian byte length
of a natural number (0 for 0). -/
def numBytes (n : Nat) : Nat := numBytesAux n n

/-- Big-endian base-256 digits of `n`, padded/truncated to length
`len` (most significant first). -/
def beBytes : Nat → Nat → List Nat
  | 0, _ => []
  | l + 1, n => (n / 256 ^ l % 256) :: beBytes l n

/-- Modelled from the spec: `DH_size` — the byte length of the
modulus. -/
def DH_size (dh : DH) : Nat := numBytes dh.p

/-- Modelled from the spec: the raw shared secret
`pub_key ^ priv mod p` that `DH_compute_key` and
`DH_compute_key_padded` both derive. -/
def sharedSecret (pub_key : Nat) (dh : DH) : Nat :=
  pub_key ^ dh.priv % dh.p

/-- Modelled from the spec: `DH_compute_key` — writes the shared secret
big-endian with leading zero bytes stripped, returning the number of
bytes written (0, treated as failure by the caller, for a zero
secret). -/
def DH_compute_key (pub_key : Nat) (dh : DH) : Nat × List Nat :=
  (numBytes (sharedSecret pub_key dh),
   beBytes (numBytes (sharedSecret pub_key dh)) (sharedSecret pub_key dh))

/-- Modelled from the spec: `DH_compute_key_padded` — writes the shared
secret left-padded with zero bytes to the full modulus size and returns
that size. -/
def DH_compute_key_padded (pub_key : Nat) (dh : DH) : Nat × List Nat :=
  (DH_size dh, beBytes (DH_size dh) (sharedSecret pub_key dh))

/-- The provider key-exchange context (`PROV_DH_CTX`): local key, peer
key, and the pad flag (a C `int`). -/
structure PROV_DH_CTX where
  dh : Option DH
  dhpeer : Option DH
  pad : Int
deriving DecidableEq

/-- `dh_newctx`: `OPENSSL_zalloc`, all fields zero/NULL. -/
def dh_newctx : PROV_DH_CTX := { dh := none, dhpeer := none, pad := 0 }

/-- Shallow embedding of `dh_init`: release any previous key, store and
up-ref the new one, succeed iff it is non-NULL. -/
def dh_init (pdhctx : PROV_DH_CTX) (vdh : Option DH) : PROV_DH_CTX × Nat :=
  ({ pdhctx with dh := vdh }, if vdh.isSome then 1 else 0)

/-- Shallow embedding of `dh_set_peer`: release any previous peer key,
store and up-ref the new one, succeed iff it is non-NULL. -/
def dh_set_peer (pdhctx : PROV_DH_CTX) (vdh : Option DH) :
    PROV_DH_CTX × Nat :=
  ({ pdhctx with dhpeer := vdh }, if vdh.isSome then 1 else 0)

/-- Result of a `dh_derive` call: return value, the value written to
`*keylen` (if written), and the bytes written to the output buffer.  On
failure after the compute call the C code may already have scribbled
into the caller's buffer; the model reports no bytes for failed calls
and no claim inspects them. -/
structure DeriveResult where
  ret : Nat
  keylen : Option Nat
  out : List Nat
deriving DecidableEq

/-- Shallow embedding of `dh_derive` (the `key == NULL` test is the
`keyNull` flag):

    if (pdhctx->dh == NULL || pdhctx->dhpeer == NULL) return 0;
    dhsize = (size_t)DH_size(pdhctx->dh);
    if (key == NULL) { *keylen = dhsize; return 1; }
    if (outlen < dhsize) return 0;
    DH_get0_key(pdhctx->dhpeer, &pub_key, NULL);
    ret = pad ? DH_compute_key_padded(...) : DH_compute_key(...);
    if (ret <= 0) return 0;
    *keylen = ret; return 1;
-/
def dh_derive (pdhctx : PROV_DH_CTX) (keyNull : Bool) (outlen : Nat) :
    DeriveResult :=
  match pdhctx.dh, pdhctx.dhpeer with
  | some dh, some dhpeer =>
    let dhsize := DH_size dh
    if keyNull then { ret := 1, keylen := some dhsize, out := [] }
    else if outlen < dhsize then { ret := 0, keylen := none, out := [] }
    else
      let pub_key := dhpeer.pub
      let r := if pdhctx.pad ≠ 0 then DH_compute_key_padded pub_key dh
               else DH_compute_key pub_key dh
      if r.1 = 0 then { ret := 0, keylen := none, out := [] }
      else { ret := 1, keylen := some r.1, out := r.2 }
  | _, _ => { ret := 0, keylen := none, out := [] }

/-- The key of the reconfigurable pad parameter
(`OSSL_EXCHANGE_PARAM_PAD`). -/
def OSSL_EXCHANGE_PARAM_PAD : String := "pad"

/-- Modelled from the spec: `OSSL_PARAM_locate_const` over a params
array reduced to key/integer-value pairs (only the integer "pad"
parameter is ever consulted here, so `OSSL_PARAM_get_int` cannot
fail on a located entry). -/
def OSSL_PARAM_locate_const (params : List (String × Int)) (key : String) :
    Option (String × Int) :=
  params.find? (fun q => q.1 = key)

/-- Shallow embedding of `dh_set_params`; `none` is a NULL params
pointer (the NULL-context test is omitted: live contexts only). -/
def dh_set_params (pdhctx : PROV_DH_CTX)
    (params : Option (List (String × Int))) : PROV_DH_CTX × Nat :=
  match params with
  | none => (pdhctx, 0)
  | some ps =>
    match OSSL_PARAM_locate_const ps OSSL_EXCHANGE_PARAM_PAD with
    | none => (pdhctx, 0)
    | some q => ({ pdhctx with pad := q.2 }, 1)

end OpenSSLSpec

namespace OpenSSLSpec

/-! ### Bit-packing helper lemmas -/

theorem and_shiftLeft_shiftLeft (a b k : Nat) :
    (a <<< k) &&& (b <<< k) = (a &&& b) <<< k := by
  apply Nat.eq_of_testBit_eq
  intro i
  simp only [Nat.testBit_and, Nat.testBit_shiftLeft]
  by_cases h : k ≤ i <;> simp [h]

theorem le_or_right (a b : Nat) : b ≤ a ||| b := by
  apply Nat.le_of_testBit
  intro i h
  simp [Nat.testBit_or, h]

/-- In-range packing: for operation ids below `2 ^ 8` and name ids below
`2 ^ 24`, `method_id` is exactly `name_id * 256 + operation_id`. -/
theorem method_id_eq (op nid : Nat) (hop0 : 0 < op) (hop : op < 2 ^ 8)
    (hn0 : 0 < nid) (hn : nid < 2 ^ 24) :
    method_id op nid = 256 * nid + op := by
  have h1 : ¬ ¬ (nid < 2 ^ 24 ∨ op < 2 ^ 8) := by tauto
  have h2 : ¬ ¬ (nid > 0 ∧ op > 0) := by
    push_neg
    exact ⟨hn0, hop0⟩
  rw [method_id, if_neg h1, if_neg h2]
  have hsm : nid <<< 8 % 2 ^ 32 = nid <<< 8 := by
    apply Nat.mod_eq_of_lt
    rw [Nat.shiftLeft_eq]
    omega
  have hmask : (0xFFFFFF00 : Nat) = (2 ^ 24 - 1) <<< 8 := by decide
  have hand : nid <<< 8 &&& 0xFFFFFF00 = nid <<< 8 := by
    rw [hmask, and_shiftLeft_shiftLeft]
    congr 1
    rw [Nat.and_pow_two_sub_one_eq_mod]
    exact Nat.mod_eq_of_lt hn
  have hopand : op &&& 0xFF = op := by
    have h8 : (0xFF : Nat) = 2 ^ 8 - 1 := by norm_num
    rw [h8, Nat.and_pow_two_sub_one_eq_mod]
    exact Nat.mod_eq_of_lt hop
  rw [hsm, hand, hopand, Nat.shiftLeft_eq, Nat.mul_comm nid (2 ^ 8),
      ← Nat.mul_add_lt_is_or hop nid]

/-- For any positive name id (bounded or not) and an operation id in
`(0, 2 ^ 8)`, `method_id` is non-zero: the assertions pass and the low
byte of the packed value is the non-zero operation id. -/
theorem method_id_pos (op nid : Nat) (hop0 : 0 < op) (hop : op < 2 ^ 8)
    (hn0 : 0 < nid) : 0 < method_id op nid := by
  have h1 : ¬ ¬ (nid < 2 ^ 24 ∨ op < 2 ^ 8) := by tauto
  have h2 : ¬ ¬ (nid > 0 ∧ op > 0) := by
    push_neg
    exact ⟨hn0, hop0⟩
  rw [method_id, if_neg h1, if_neg h2]
  have hopand : op &&& 0xFF = op := by
    have : (0xFF : Nat) = 2 ^ 8 - 1 := by norm_num
    rw [this, Nat.and_pow_two_sub_one_eq_mod]
    exact Nat.mod_eq_of_lt hop
  rw [hopand]
  calc 0 < op := hop0
    _ ≤ _ := le_or_right _ _

/-- C3, as stated, is false: `method_id` is not injective on the domain
`name_id > 0 ∧ operation_id > 0`.  The pairs `(op, name) = (1, 1)` and
`(257, 1)` are distinct yet collide (only the low 8 bits of the
operation id survive the packing), and `(256, 2 ^ 24)` — both
components positive — is mapped to 0. -/
theorem method_id_claim_counterexample :
    method_id 1 1 = method_id 257 1 ∧ (257 : Nat) ≠ 1 ∧
      method_id 256 (2 ^ 24) = 0 ∧ 0 < (256 : Nat) ∧ 0 < (2 ^ 24 : Nat) := by
  refine ⟨by decide, by decide, ?_, by decide, by decide⟩
  decide

/-- C3 (amended): within the width invariants of the data model
(`name_id ≤ 2 ^ 24 - 1`, `operation_id ≤ 2 ^ 8 - 1`, both positive),
`method_id` computes `(name_id << 8) | operation_id = 256 * name_id +
operation_id`, is non-zero, and is injective: distinct in-range pairs
never collide. -/
theorem method_id_packs_uniquely (op nid : Nat) (hop0 : 0 < op)
    (hop : op < 2 ^ 8) (hn0 : 0 < nid) (hn : nid < 2 ^ 24) :
    method_id op nid = 256 * nid + op ∧ method_id op nid ≠ 0 ∧
      ∀ op2 nid2, 0 < op2 → op2 < 2 ^ 8 → 0 < nid2 → nid2 < 2 ^ 24 →
        method_id op nid = method_id op2 nid2 → op = op2 ∧ nid = nid2 := by
  refine ⟨method_id_eq op nid hop0 hop hn0 hn, ?_, ?_⟩
  · have := method_id_pos op nid hop0 hop hn0
    omega
  · intro op2 nid2 hop20 hop2 hn20 hn2 heq
    rw [method_id_eq op nid hop0 hop hn0 hn,
        method_id_eq op2 nid2 hop20 hop2 hn20 hn2] at heq
    omega

/-- Witness for the amended C3 theorem at concrete in-range inputs:
operation id 1 (digest), name id 3. -/
theorem method_id_packs_uniquely_witness :
    method_id 1 3 = 256 * 3 + 1 ∧ method_id 1 3 ≠ 0 := by
  have h := method_id_packs_uniquely 1 3 (by decide) (by decide) (by decide)
    (by decide)
  exact ⟨h.1, h.2.1⟩

end OpenSSLSpec

namespace OpenSSLSpec

/-! ### Fetch-state helper lemmas -/

theorem lookupRef_bumpRef (rc : List (Nat × Nat)) (m : Nat) :
    lookupRef (bumpRef rc m) m = lookupRef rc m + 1 := by
  induction rc with
  | nil => simp [lookupRef, bumpRef, List.find?]
  | cons e rest ih =>
    by_cases h : e.1 = m
    · simp [lookupRef, bumpRef, h, List.find?]
    · simp only [bumpRef, if_neg h]
      simp only [lookupRef, List.find?]
      have hd : (decide (e.1 = m)) = false := by simp [h]
      rw [hd]
      exact ih

theorem cache_get_cache_set (c : List ((Nat × String) × Nat))
    (mid : Nat) (props : String) (m : Nat) :
    cache_get (cache_set c mid props m) mid props = some m := by
  simp [cache_get, cache_set, List.find?]

theorem name2num_append_self (nm : List String) (n : String)
    (h : name2num nm n = 0) : name2num (nm ++ [n]) n ≠ 0 := by
  induction nm with
  | nil => simp [name2num]
  | cons s rest ih =>
    rw [name2num] at h
    by_cases hs : s = n
    · rw [if_pos hs] at h
      exact absurd h (by decide)
    · rw [if_neg hs] at h
      have hrest : name2num rest n = 0 := by
        rcases hk : name2num rest n with _ | k
        · rfl
        · rw [hk] at h
          exact absurd h (by simp)
      have := ih hrest
      rw [List.cons_append, name2num, if_neg hs]
      rcases hk2 : name2num (rest ++ [n]) n with _ | k
      · exact absurd hk2 this
      · simp

end OpenSSLSpec

namespace OpenSSLSpec

theorem method_id_toNat_pos (operation_id : Int) (nid : Nat)
    (hop0 : 0 < operation_id) (hop : operation_id < 256) (hn : nid ≠ 0) :
    method_id operation_id.toNat nid ≠ 0 := by
  have h1 : 0 < operation_id.toNat := by omega
  have h2 : operation_id.toNat < 2 ^ 8 := by
    have : operation_id.toNat < 256 := by omega
    omega
  have := method_id_pos operation_id.toNat nid h1 h2 (Nat.pos_of_ne_zero hn)
  omega

/-- C7: `evp_generic_fetch` requires a positive operation id — any call
with `operation_id ≤ 0` returns None with the state untouched (the
`ossl_assert(operation_id > 0)` guard) — and whenever it returns an
implementation, that implementation's reference count has been
incremented by exactly one for the caller: by `up_ref_method` on a
cache hit, or by the construction path on a miss. -/
theorem evp_generic_fetch_guard_and_upref (st : FetchState)
    (operation_id : Int) (name props : String)
    (avail : List (String × Nat)) :
    (operation_id ≤ 0 →
      evp_generic_fetch st operation_id name props avail = (none, st)) ∧
    (∀ m st1,
      evp_generic_fetch st operation_id name props avail = (some m, st1) →
      lookupRef st1.refcnt m = lookupRef st.refcnt m + 1) := by
  constructor
  · intro h
    rw [evp_generic_fetch, if_pos (by omega)]
  · intro m st1 h
    by_cases hop : operation_id > 0
    · simp only [evp_generic_fetch, if_neg (not_not_intro hop)] at h
      split at h
      · exact absurd h (by simp)
      · split at h
        · -- cache miss: the construction path
          split at h
          next st2 hc =>
            exact absurd h (by simp)
          next mc st2 hc =>
            simp only [ossl_method_construct] at hc
            split at hc
            · exact absurd hc (by simp)
            · simp only [Prod.mk.injEq, Option.some.injEq] at hc h
              obtain ⟨hmc, hst2⟩ := hc
              obtain ⟨hm, hst1⟩ := h
              subst hm hst1
              rw [← hst2, hmc]
              simp only []
              rw [lookupRef_bumpRef]
        · -- cache hit: explicit up_ref
          simp only [Prod.mk.injEq, Option.some.injEq] at h
          obtain ⟨hm, hst1⟩ := h
          subst hm
          rw [← hst1]
          simp only []
          rw [lookupRef_bumpRef]
    · rw [evp_generic_fetch, if_pos hop] at h
      exact absurd h (by simp)

/-- Witness for C7 at concrete inputs: an empty library context and a
single provider algorithm "SHA-256" bound to record 1.  With
`operation_id = 0` the fetch returns None and leaves the state alone;
with `operation_id = 1` (digest) it returns record 1 whose refcount went
from 0 to 1. -/
theorem evp_generic_fetch_guard_and_upref_witness :
    evp_generic_fetch ⟨[], [], []⟩ 0 "SHA-256" "" [("SHA-256", 1)] =
      (none, ⟨[], [], []⟩) ∧
    lookupRef (FetchState.mk ["SHA-256"] [((257, ""), 1)] [(1, 1)]).refcnt 1 =
      lookupRef (FetchState.mk [] [] []).refcnt 1 + 1 := by
  constructor
  · exact (evp_generic_fetch_guard_and_upref ⟨[], [], []⟩ 0 "SHA-256" ""
      [("SHA-256", 1)]).1 (by decide)
  · exact (evp_generic_fetch_guard_and_upref ⟨[], [], []⟩ 1 "SHA-256" ""
      [("SHA-256", 1)]).2 1 ⟨["SHA-256"], [((257, ""), 1)], [(1, 1)]⟩ (by decide)

end OpenSSLSpec

namespace OpenSSLSpec

/-- C4: fetch is idempotent.  If a fetch for
`(libctx, op, name, query)` returned a method record `m`, then an
immediately repeated fetch with identical arguments returns the very
same record `m`, and the repeat call is answered from the query cache:
the only state change is the reference-count increment on `m`
(`up_ref_method` on the cache-hit branch).  The operation id is
constrained to the data model's width invariant `0 < op ≤ 2 ^ 8 - 1`. -/
theorem evp_generic_fetch_idempotent (st : FetchState)
    (operation_id : Int) (name props : String)
    (avail : List (String × Nat)) (m : Nat) (st1 : FetchState)
    (hop0 : 0 < operation_id) (hop : operation_id < 256)
    (h1 : evp_generic_fetch st operation_id name props avail =
      (some m, st1)) :
    evp_generic_fetch st1 operation_id name props avail =
      (some m, { st1 with refcnt := bumpRef st1.refcnt m }) := by
  simp only [evp_generic_fetch, if_neg (not_not_intro (by omega :
    operation_id > 0))] at h1 ⊢
  split at h1
  · exact absurd h1 (by simp)
  next hguard =>
    split at h1
    next hscrut =>
      -- first call was a cache miss and went through construction
      split at h1
      next st2 hc =>
        exact absurd h1 (by simp)
      next mc st2 hc =>
        simp only [ossl_method_construct] at hc
        split at hc
        · exact absurd hc (by simp)
        next a hfind =>
          simp only [Prod.mk.injEq, Option.some.injEq] at hc h1
          obtain ⟨hmc, hst2⟩ := hc
          obtain ⟨hm, hst1⟩ := h1
          subst hst2
          subst hst1
          subst hmc
          subst hm
          have hnid1 : name2num (if name2num st.namemap name = 0
              then st.namemap ++ [name] else st.namemap) name ≠ 0 := by
            by_cases h0 : name2num st.namemap name = 0
            · rw [if_pos h0]
              exact name2num_append_self st.namemap name h0
            · rw [if_neg h0]
              exact h0
          rw [if_neg (fun hcontr =>
            method_id_toNat_pos operation_id _ hop0 hop hnid1 hcontr.2)]
          rw [if_neg hnid1, cache_get_cache_set]
    next mc hscrut =>
      -- first call was answered from the cache already
      simp only [Prod.mk.injEq, Option.some.injEq] at h1
      obtain ⟨hm, hst1⟩ := h1
      subst hst1
      subst hm
      have hnid : name2num st.namemap name ≠ 0 := by
        intro h0
        rw [if_pos h0] at hscrut
        exact Option.noConfusion hscrut
      rw [if_neg hnid] at hscrut
      rw [if_neg (fun hcontr =>
        method_id_toNat_pos operation_id _ hop0 hop hnid hcontr.2)]
      rw [if_neg hnid, hscrut]

/-- Witness for C4: the concrete first fetch of "SHA-256" (digest,
operation id 1) from an empty context constructs record 1 and caches it
under method id 257; the theorem then forces the repeated fetch to
answer record 1 from the cache with only the refcount bumped. -/
theorem evp_generic_fetch_idempotent_witness :
    evp_generic_fetch ⟨["SHA-256"], [((257, ""), 1)], [(1, 1)]⟩ 1
        "SHA-256" "" [("SHA-256", 1)] =
      (some 1, ⟨["SHA-256"], [((257, ""), 1)], [(1, 2)]⟩) := by
  have := evp_generic_fetch_idempotent ⟨[], [], []⟩ 1 "SHA-256" ""
    [("SHA-256", 1)] 1 ⟨["SHA-256"], [((257, ""), 1)], [(1, 1)]⟩
    (by decide) (by decide) (by decide)
  exact this

end OpenSSLSpec


namespace OpenSSLSpec

/-! ### Digest-adapter helper lemmas -/

theorem suppliesFn_cons_ne (e : OSSL_DISPATCH) (fns : List OSSL_DISPATCH)
    (id : Nat) (h : e.function_id ≠ 0) :
    suppliesFn (e :: fns) id =
      (decide (e.function_id = id) || suppliesFn fns id) := by
  simp [suppliesFn, List.takeWhile_cons, h]

theorem case_slot_newctx (md : EVP_MD) (c : Nat) (e : OSSL_DISPATCH)
    (h : (md_dispatch_case md c e).1.newctx ≠ none) :
    md.newctx ≠ none ∨ e.function_id = OSSL_FUNC_DIGEST_NEWCTX := by
  unfold md_dispatch_case at h
  split at h <;>
    first
    | (left; exact h)
    | (split at h <;> simp_all [OSSL_FUNC_DIGEST_NEWCTX])

theorem case_slot_dinit (md : EVP_MD) (c : Nat) (e : OSSL_DISPATCH)
    (h : (md_dispatch_case md c e).1.dinit ≠ none) :
    md.dinit ≠ none ∨ e.function_id = OSSL_FUNC_DIGEST_INIT := by
  unfold md_dispatch_case at h
  split at h <;>
    first
    | (left; exact h)
    | (split at h <;> simp_all [OSSL_FUNC_DIGEST_INIT])

theorem case_slot_dupdate (md : EVP_MD) (c : Nat) (e : OSSL_DISPATCH)
    (h : (md_dispatch_case md c e).1.dupdate ≠ none) :
    md.dupdate ≠ none ∨ e.function_id = OSSL_FUNC_DIGEST_UPDATE := by
  unfold md_dispatch_case at h
  split at h <;>
    first
    | (left; exact h)
    | (split at h <;> simp_all [OSSL_FUNC_DIGEST_UPDATE])

theorem case_slot_dfinal (md : EVP_MD) (c : Nat) (e : OSSL_DISPATCH)
    (h : (md_dispatch_case md c e).1.dfinal ≠ none) :
    md.dfinal ≠ none ∨ e.function_id = OSSL_FUNC_DIGEST_FINAL := by
  unfold md_dispatch_case at h
  split at h <;>
    first
    | (left; exact h)
    | (split at h <;> simp_all [OSSL_FUNC_DIGEST_FINAL])

theorem case_slot_freectx (md : EVP_MD) (c : Nat) (e : OSSL_DISPATCH)
    (h : (md_dispatch_case md c e).1.freectx ≠ none) :
    md.freectx ≠ none ∨ e.function_id = OSSL_FUNC_DIGEST_FREECTX := by
  unfold md_dispatch_case at h
  split at h <;>
    first
    | (left; exact h)
    | (split at h <;> simp_all [OSSL_FUNC_DIGEST_FREECTX])

theorem case_slot_digest (md : EVP_MD) (c : Nat) (e : OSSL_DISPATCH)
    (h : (md_dispatch_case md c e).1.digest ≠ none) :
    md.digest ≠ none ∨ e.function_id = OSSL_FUNC_DIGEST_DIGEST := by
  unfold md_dispatch_case at h
  split at h <;>
    first
    | (left; exact h)
    | (split at h <;> simp_all [OSSL_FUNC_DIGEST_DIGEST])

theorem case_slot_size (md : EVP_MD) (c : Nat) (e : OSSL_DISPATCH)
    (h : (md_dispatch_case md c e).1.size ≠ none) :
    md.size ≠ none ∨ e.function_id = OSSL_FUNC_DIGEST_SIZE := by
  unfold md_dispatch_case at h
  split at h <;>
    first
    | (left; exact h)
    | (split at h <;> simp_all [OSSL_FUNC_DIGEST_SIZE])

/-- Generic tracking of a slot through the decoding loop: if the slot is
filled at the end, it was filled at the start or the table supplies the
corresponding id before the terminator. -/
theorem loop_slot (acc : EVP_MD → Option Nat) (id : Nat)
    (hcase : ∀ md c e, acc (md_dispatch_case md c e).1 ≠ none →
      acc md ≠ none ∨ e.function_id = id) :
    ∀ (fns : List OSSL_DISPATCH) (md : EVP_MD) (c : Nat),
      acc (md_from_dispatch_loop fns md c).1 ≠ none →
      acc md ≠ none ∨ suppliesFn fns id = true := by
  intro fns
  induction fns with
  | nil =>
    intro md c h
    exact Or.inl h
  | cons e rest ih =>
    intro md c h
    rw [md_from_dispatch_loop] at h
    by_cases h0 : e.function_id = 0
    · rw [if_pos h0] at h
      exact Or.inl h
    · rw [if_neg h0] at h
      rcases ih _ _ h with h1 | h1
      · rcases hcase md c e h1 with h2 | h2
        · exact Or.inl h2
        · right
          rw [suppliesFn_cons_ne e rest id h0]
          simp [h2]
      · right
        rw [suppliesFn_cons_ne e rest id h0]
        simp [h1]

theorem case_fncnt (md : EVP_MD) (c : Nat) (e : OSSL_DISPATCH) :
    (md_dispatch_case md c e).2 + five_set md =
      c + five_set (md_dispatch_case md c e).1 := by
  unfold md_dispatch_case
  split <;>
    first
    | rfl
    | (split <;> simp_all [five_set, slotInd] <;> omega)

theorem loop_fncnt :
    ∀ (fns : List OSSL_DISPATCH) (md : EVP_MD) (c : Nat),
      (md_from_dispatch_loop fns md c).2 + five_set md =
        c + five_set (md_from_dispatch_loop fns md c).1 := by
  intro fns
  induction fns with
  | nil =>
    intro md c
    simp [md_from_dispatch_loop]
  | cons e rest ih =>
    intro md c
    rw [md_from_dispatch_loop]
    by_cases h0 : e.function_id = 0
    · rw [if_pos h0]
    · rw [if_neg h0]
      dsimp only
      have hA := ih (md_dispatch_case md c e).1 (md_dispatch_case md c e).2
      have hB := case_fncnt md c e
      omega

end OpenSSLSpec

namespace OpenSSLSpec

theorem slotInd_le_one (o : Option Nat) : slotInd o ≤ 1 := by
  unfold slotInd
  split <;> omega

theorem slot_ne_none_of_ind (o : Option Nat) (h : slotInd o ≠ 0) :
    o ≠ none := by
  intro he
  rw [he] at h
  exact h rfl

/-- C1: for every dispatch table handed to the digest adapter,
construction succeeds only if the table supplies either all five of
{newctx, init, update, final, freectx} (a partial subset makes `fncnt`
land strictly between 0 and 5 and fails the check) or the stand-alone
one-shot digest slot, and in both cases the size slot.  Equivalently
(contrapositive): any table violating this rule makes the adapter
return None — the partially built record does not escape. -/
theorem evp_md_from_dispatch_completeness (name : String)
    (fns : List OSSL_DISPATCH) (prov : Bool)
    (h : (evp_md_from_dispatch name fns prov).isSome = true) :
    ((suppliesFn fns OSSL_FUNC_DIGEST_NEWCTX = true ∧
      suppliesFn fns OSSL_FUNC_DIGEST_INIT = true ∧
      suppliesFn fns OSSL_FUNC_DIGEST_UPDATE = true ∧
      suppliesFn fns OSSL_FUNC_DIGEST_FINAL = true ∧
      suppliesFn fns OSSL_FUNC_DIGEST_FREECTX = true) ∨
      suppliesFn fns OSSL_FUNC_DIGEST_DIGEST = true) ∧
    suppliesFn fns OSSL_FUNC_DIGEST_SIZE = true := by
  simp only [evp_md_from_dispatch] at h
  split at h
  · exact absurd h (by simp)
  next hC =>
    push_neg at hC
    obtain ⟨hcnt, hdig, hsz⟩ := hC
    have hsize : suppliesFn fns OSSL_FUNC_DIGEST_SIZE = true := by
      rcases loop_slot (fun md => md.size) OSSL_FUNC_DIGEST_SIZE
        case_slot_size fns (EVP_MD_meth_new name) 0 hsz with hx | hx
      · exact absurd rfl hx
      · exact hx
    refine ⟨?_, hsize⟩
    have hfc := loop_fncnt fns (EVP_MD_meth_new name) 0
    have hzero : five_set (EVP_MD_meth_new name) = 0 := rfl
    rw [hzero] at hfc
    by_cases h5 : (md_from_dispatch_loop fns (EVP_MD_meth_new name) 0).2 = 5
    · -- the full five-function set was decoded
      left
      have hfs : five_set
          (md_from_dispatch_loop fns (EVP_MD_meth_new name) 0).1 = 5 := by
        omega
      unfold five_set at hfs
      have b1 := slotInd_le_one
        (md_from_dispatch_loop fns (EVP_MD_meth_new name) 0).1.newctx
      have b2 := slotInd_le_one
        (md_from_dispatch_loop fns (EVP_MD_meth_new name) 0).1.dinit
      have b3 := slotInd_le_one
        (md_from_dispatch_loop fns (EVP_MD_meth_new name) 0).1.dupdate
      have b4 := slotInd_le_one
        (md_from_dispatch_loop fns (EVP_MD_meth_new name) 0).1.dfinal
      have b5 := slotInd_le_one
        (md_from_dispatch_loop fns (EVP_MD_meth_new name) 0).1.freectx
      refine ⟨?_, ?_, ?_, ?_, ?_⟩
      · rcases loop_slot (fun md => md.newctx) OSSL_FUNC_DIGEST_NEWCTX
          case_slot_newctx fns (EVP_MD_meth_new name) 0
          (slot_ne_none_of_ind
            (md_from_dispatch_loop fns (EVP_MD_meth_new name) 0).1.newctx
            (by omega)) with hx | hx
        · exact absurd rfl hx
        · exact hx
      · rcases loop_slot (fun md => md.dinit) OSSL_FUNC_DIGEST_INIT
          case_slot_dinit fns (EVP_MD_meth_new name) 0
          (slot_ne_none_of_ind
            (md_from_dispatch_loop fns (EVP_MD_meth_new name) 0).1.dinit
            (by omega)) with hx | hx
        · exact absurd rfl hx
        · exact hx
      · rcases loop_slot (fun md => md.dupdate) OSSL_FUNC_DIGEST_UPDATE
          case_slot_dupdate fns (EVP_MD_meth_new name) 0
          (slot_ne_none_of_ind
            (md_from_dispatch_loop fns (EVP_MD_meth_new name) 0).1.dupdate
            (by omega)) with hx | hx
        · exact absurd rfl hx
        · exact hx
      · rcases loop_slot (fun md => md.dfinal) OSSL_FUNC_DIGEST_FINAL
          case_slot_dfinal fns (EVP_MD_meth_new name) 0
          (slot_ne_none_of_ind
            (md_from_dispatch_loop fns (EVP_MD_meth_new name) 0).1.dfinal
            (by omega)) with hx | hx
        · exact absurd rfl hx
        · exact hx
      · rcases loop_slot (fun md => md.freectx) OSSL_FUNC_DIGEST_FREECTX
          case_slot_freectx fns (EVP_MD_meth_new name) 0
          (slot_ne_none_of_ind
            (md_from_dispatch_loop fns (EVP_MD_meth_new name) 0).1.freectx
            (by omega)) with hx | hx
        · exact absurd rfl hx
        · exact hx
    · -- fncnt = 0: the stand-alone digest slot must be present
      right
      have h0 : (md_from_dispatch_loop fns (EVP_MD_meth_new name) 0).2 = 0 := by
        by_contra hne
        exact h5 (hcnt hne)
      have hd := hdig h0
      rcases loop_slot (fun md => md.digest) OSSL_FUNC_DIGEST_DIGEST
        case_slot_digest fns (EVP_MD_meth_new name) 0 hd with hx | hx
      · exact absurd rfl hx
      · exact hx

/-- Witness for C1: a table carrying the full five-function set plus
size (the SHA-256 layout of the spec's round-trip scenario) is accepted,
and the theorem recovers the completeness rule for it. -/
theorem evp_md_from_dispatch_completeness_witness :
    (evp_md_from_dispatch "SHA-256"
      [⟨1, 101⟩, ⟨2, 102⟩, ⟨3, 103⟩, ⟨4, 104⟩, ⟨6, 106⟩, ⟨8, 108⟩, ⟨0, 0⟩]
      true).isSome = true ∧
    ((suppliesFn [⟨1, 101⟩, ⟨2, 102⟩, ⟨3, 103⟩, ⟨4, 104⟩, ⟨6, 106⟩,
        ⟨8, 108⟩, ⟨0, 0⟩] OSSL_FUNC_DIGEST_NEWCTX = true ∧
      suppliesFn [⟨1, 101⟩, ⟨2, 102⟩, ⟨3, 103⟩, ⟨4, 104⟩, ⟨6, 106⟩,
        ⟨8, 108⟩, ⟨0, 0⟩] OSSL_FUNC_DIGEST_INIT = true ∧
      suppliesFn [⟨1, 101⟩, ⟨2, 102⟩, ⟨3, 103⟩, ⟨4, 104⟩, ⟨6, 106⟩,
        ⟨8, 108⟩, ⟨0, 0⟩] OSSL_FUNC_DIGEST_UPDATE = true ∧
      suppliesFn [⟨1, 101⟩, ⟨2, 102⟩, ⟨3, 103⟩, ⟨4, 104⟩, ⟨6, 106⟩,
        ⟨8, 108⟩, ⟨0, 0⟩] OSSL_FUNC_DIGEST_FINAL = true ∧
      suppliesFn [⟨1, 101⟩, ⟨2, 102⟩, ⟨3, 103⟩, ⟨4, 104⟩, ⟨6, 106⟩,
        ⟨8, 108⟩, ⟨0, 0⟩] OSSL_FUNC_DIGEST_FREECTX = true) ∨
      suppliesFn [⟨1, 101⟩, ⟨2, 102⟩, ⟨3, 103⟩, ⟨4, 104⟩, ⟨6, 106⟩,
        ⟨8, 108⟩, ⟨0, 0⟩] OSSL_FUNC_DIGEST_DIGEST = true) ∧
    suppliesFn [⟨1, 101⟩, ⟨2, 102⟩, ⟨3, 103⟩, ⟨4, 104⟩, ⟨6, 106⟩,
        ⟨8, 108⟩, ⟨0, 0⟩] OSSL_FUNC_DIGEST_SIZE = true := by
  have h : (evp_md_from_dispatch "SHA-256"
      [⟨1, 101⟩, ⟨2, 102⟩, ⟨3, 103⟩, ⟨4, 104⟩, ⟨6, 106⟩, ⟨8, 108⟩, ⟨0, 0⟩]
      true).isSome = true := by decide
  exact ⟨h, evp_md_from_dispatch_completeness "SHA-256" _ true h⟩

end OpenSSLSpec

namespace OpenSSLSpec

/-! ### Digest-context lifecycle -/

/-- Shared characterisation of `EVP_MD_CTX_reset` on the provider path
(digest bound with a provider, live provider state, no pkey context):
the provider state is released and the CLEANED flag set; nothing else
in the context changes. -/
theorem EVP_MD_CTX_reset_provider (ctx : EVP_MD_CTX) (d : EVP_MD)
    (hd : ctx.digest = some d) (hp : d.prov = true) (hpc : ctx.pctx = none)
    (hpv : ctx.provctx.isSome = true) :
    EVP_MD_CTX_reset ctx =
      ({ ctx with provctx := none,
                  flags := ctx.flags ||| EVP_MD_CTX_FLAG_CLEANED }, 1) := by
  unfold EVP_MD_CTX_reset
  rw [hd]
  simp only [hp, if_true]
  have h1 : ctx.provctx ≠ none := by
    intro he
    rw [he] at hpv
    exact absurd hpv (by decide)
  rw [if_pos h1]
  dsimp only
  rw [if_neg (by
    simp only [hpc]
    exact fun h => h rfl)]

/-- C5, as stated, is false: on the provider path `EVP_MD_CTX_reset`
does not return the envelope to the post-new state and does not release
the context's strong reference to the implementation.  For a concrete
fetched-and-initialised context, reset keeps `digest` and
`fetched_digest` bound (no `EVP_MD_meth_free` happens there — that is
`EVP_MD_CTX_free`'s job) and leaves the CLEANED flag set, so the result
differs from a freshly created context. -/
theorem EVP_MD_CTX_reset_claim_counterexample :
    (EVP_MD_CTX_reset sampleCtx).1 ≠ EVP_MD_CTX_new ∧
    (EVP_MD_CTX_reset sampleCtx).1.fetched_digest = some sampleMD ∧
    (EVP_MD_CTX_reset sampleCtx).1.digest = some sampleMD := by
  refine ⟨?_, by decide, by decide⟩
  decide

/-- C5 (amended): on the provider path with no attached pkey context
and live provider state, `EVP_MD_CTX_reset` safely releases the
per-context provider state — `freectx` is invoked on it, `provctx`
becomes NULL — sets the CLEANED flag and returns 1; but it retains the
context's `digest` binding and its strong `fetched_digest` reference
(those are released by `EVP_MD_CTX_free`, or replaced on
re-initialisation), so the context is not returned all the way to the
post-new state. -/
theorem EVP_MD_CTX_reset_releases_provctx_only (ctx : EVP_MD_CTX)
    (d : EVP_MD) (hd : ctx.digest = some d) (hp : d.prov = true)
    (hpc : ctx.pctx = none) (hpv : ctx.provctx.isSome = true) :
    EVP_MD_CTX_reset ctx =
      ({ ctx with provctx := none,
                  flags := ctx.flags ||| EVP_MD_CTX_FLAG_CLEANED }, 1) ∧
    (EVP_MD_CTX_reset ctx).1.digest = ctx.digest ∧
    (EVP_MD_CTX_reset ctx).1.fetched_digest = ctx.fetched_digest := by
  have h := EVP_MD_CTX_reset_provider ctx d hd hp hpc hpv
  refine ⟨h, ?_, ?_⟩ <;> rw [h]

/-- Witness for the amended C5 theorem on the concrete context
`sampleCtx`. -/
theorem EVP_MD_CTX_reset_releases_provctx_only_witness :
    EVP_MD_CTX_reset sampleCtx =
      ({ sampleCtx with
          provctx := none,
          flags := sampleCtx.flags ||| EVP_MD_CTX_FLAG_CLEANED }, 1) ∧
    (EVP_MD_CTX_reset sampleCtx).1.digest = sampleCtx.digest ∧
    (EVP_MD_CTX_reset sampleCtx).1.fetched_digest =
      sampleCtx.fetched_digest :=
  EVP_MD_CTX_reset_releases_provctx_only sampleCtx sampleMD (by rfl)
    (by rfl) (by rfl) (by rfl)

/-- C9: `EVP_DigestUpdate` with `count = 0` returns success (1)
immediately for every context — initialised or not — every data
pointer and every provider environment, leaving the context untouched;
since the result does not depend on `env`, no implementation code is
consulted. -/
theorem EVP_DigestUpdate_count_zero (env : ProvEnv) (ctx : EVP_MD_CTX)
    (data : List Nat) :
    EVP_DigestUpdate env ctx data 0 = some (1, ctx) := by
  rfl

/-- C6: on a freshly created digest context (`new` without `init`) the
claimed protocol-misuse failure does not happen; instead, for any
non-zero count the call reaches the legacy tail and invokes the NULL
`ctx->update` function pointer — undefined behaviour (`none`), a crash
in practice, not an error return. -/
theorem EVP_DigestUpdate_uninit_crash (env : ProvEnv) (data : List Nat) :
    EVP_DigestUpdate env EVP_MD_CTX_new data 1 = none := by
  rfl

/-- C10: on the provider path (digest bound, provider present, `dfinal`
slot present, no pkey context, live provider state), `EVP_DigestFinal_ex`
always resets the context before returning: the returned context has
`provctx` freed/NULLed and the CLEANED flag set, and this happens on
the success path, on the size-overflow failure path (where the return
value is forced to 0), and with a NULL `isize` out-pointer alike. -/
theorem EVP_DigestFinal_ex_always_resets (env : ProvEnv)
    (ctx : EVP_MD_CTX) (d : EVP_MD) (p : Nat) (isizeNull : Bool)
    (hd : ctx.digest = some d) (hp : d.prov = true) (hf : d.dfinal = some p)
    (hpc : ctx.pctx = none) (hpv : ctx.provctx.isSome = true) :
    EVP_DigestFinal_ex env ctx isizeNull =
      some { ret := if isizeNull then
                      (env.dfinalCall p ctx.provctx
                        (EVP_MD_size env ctx.digest)).1
                    else if (env.dfinalCall p ctx.provctx
                        (EVP_MD_size env ctx.digest)).2.1 ≤ UINT_MAX then
                      (env.dfinalCall p ctx.provctx
                        (EVP_MD_size env ctx.digest)).1
                    else 0,
             isize := if isizeNull then none
                      else if (env.dfinalCall p ctx.provctx
                          (EVP_MD_size env ctx.digest)).2.1 ≤ UINT_MAX then
                        some (env.dfinalCall p ctx.provctx
                          (EVP_MD_size env ctx.digest)).2.1
                      else none,
             out := (env.dfinalCall p ctx.provctx
                      (EVP_MD_size env ctx.digest)).2.2,
             ctx := { ctx with
                      provctx := none,
                      flags := ctx.flags ||| EVP_MD_CTX_FLAG_CLEANED } } := by
  unfold EVP_DigestFinal_ex
  rw [hd]
  simp only [hp, if_true, hf]
  rw [EVP_MD_CTX_reset_provider ctx d hd hp hpc hpv]
  rw [hd]
  by_cases hin : isizeNull = true
  · simp [hin]
  · have hin2 : isizeNull = false := by
      cases isizeNull
      · rfl
      · exact absurd rfl hin
    by_cases hsz : (env.dfinalCall p ctx.provctx
        (EVP_MD_size env (some d))).2.1 ≤ UINT_MAX
    · simp [hin2, hsz]
    · simp [hin2, hsz]

/-- Witness for C10: on `sampleCtx` with a well-behaved provider
(`sampleEnv`, size 32) the final succeeds and the context is reset; with
a provider reporting a size above `UINT_MAX` (`hugeEnv`) the return
value is forced to 0 and the context is reset just the same. -/
theorem EVP_DigestFinal_ex_always_resets_witness :
    EVP_DigestFinal_ex sampleEnv sampleCtx false =
      some { ret := 1, isize := some 32, out := [0xba, 0x78],
             ctx := { sampleCtx with
                      provctx := none,
                      flags := sampleCtx.flags |||
                        EVP_MD_CTX_FLAG_CLEANED } } ∧
    EVP_DigestFinal_ex hugeEnv sampleCtx false =
      some { ret := 0, isize := none, out := [],
             ctx := { sampleCtx with
                      provctx := none,
                      flags := sampleCtx.flags |||
                        EVP_MD_CTX_FLAG_CLEANED } } := by
  constructor
  · have h := EVP_DigestFinal_ex_always_resets sampleEnv sampleCtx sampleMD
      14 false (by rfl) (by rfl) (by rfl) (by rfl) (by rfl)
    rw [h]
    decide
  · have h := EVP_DigestFinal_ex_always_resets hugeEnv sampleCtx sampleMD
      14 false (by rfl) (by rfl) (by rfl) (by rfl) (by rfl)
    rw [h]
    decide

end OpenSSLSpec

namespace OpenSSLSpec

/-! ### Byte-length lemmas -/

theorem numBytesAux_fuel (f1 : Nat) : ∀ (f2 n : Nat), n ≤ f1 → n ≤ f2 →
    numBytesAux f1 n = numBytesAux f2 n := by
  induction f1 with
  | zero =>
    intro f2 n h1 h2
    have hn : n = 0 := by omega
    subst hn
    cases f2 <;> rfl
  | succ f ih =>
    intro f2 n h1 h2
    cases n with
    | zero => cases f2 <;> rfl
    | succ m =>
      cases f2 with
      | zero => omega
      | succ f2p =>
        show numBytesAux f ((m + 1) / 256) + 1 =
          numBytesAux f2p ((m + 1) / 256) + 1
        have hlt : (m + 1) / 256 ≤ m := by
          have := Nat.div_lt_self (Nat.succ_pos m) (by norm_num : 1 < 256)
          omega
        rw [ih f2p ((m + 1) / 256) (by omega) (by omega)]

theorem numBytes_eq (n : Nat) :
    numBytes n = if n = 0 then 0 else numBytes (n / 256) + 1 := by
  cases n with
  | zero => rfl
  | succ m =>
    rw [if_neg (Nat.succ_ne_zero m)]
    show numBytesAux m ((m + 1) / 256) + 1 = numBytes ((m + 1) / 256) + 1
    unfold numBytes
    have hlt : (m + 1) / 256 ≤ m := by
      have := Nat.div_lt_self (Nat.succ_pos m) (by norm_num : 1 < 256)
      omega
    rw [numBytesAux_fuel m ((m + 1) / 256) ((m + 1) / 256) hlt (by omega)]

theorem numBytes_eq_log (n : Nat) :
    numBytes n = if n = 0 then 0 else Nat.log 256 n + 1 := by
  induction n using Nat.strong_induction_on with
  | _ n ih =>
    rw [numBytes_eq]
    by_cases h0 : n = 0
    · simp [h0]
    · rw [if_neg h0, if_neg h0]
      by_cases hsmall : n < 256
      · have hd : n / 256 = 0 := Nat.div_eq_of_lt hsmall
        rw [hd]
        have hlog : Nat.log 256 n = 0 :=
          Nat.log_eq_zero_iff.mpr (Or.inl hsmall)
        rw [hlog]
        rfl
      · have h256 : 256 ≤ n := by omega
        have hdn : n / 256 < n := Nat.div_lt_self (by omega) (by norm_num)
        rw [ih (n / 256) hdn]
        have hne : n / 256 ≠ 0 := by
          intro hz
          have := (Nat.div_eq_zero_iff (by norm_num : 0 < 256)).mp hz
          omega
        rw [if_neg hne]
        have hlog := Nat.log_div_base 256 n
        have hpos : 0 < Nat.log 256 n := Nat.log_pos (by norm_num) h256
        omega

theorem numBytes_eq_zero_iff (n : Nat) : numBytes n = 0 ↔ n = 0 := by
  rw [numBytes_eq_log]
  by_cases h : n = 0 <;> simp [h]

theorem numBytes_mono (m n : Nat) (h : m ≤ n) :
    numBytes m ≤ numBytes n := by
  rw [numBytes_eq_log, numBytes_eq_log]
  by_cases hm : m = 0
  · simp [hm]
  · have hn : n ≠ 0 := by omega
    rw [if_neg hm, if_neg hn]
    exact Nat.succ_le_succ (Nat.log_mono_right h)

theorem lt_pow_numBytes (n : Nat) : n < 256 ^ numBytes n := by
  rw [numBytes_eq_log]
  by_cases h : n = 0
  · simp [h]
  · rw [if_neg h]
    exact Nat.lt_pow_succ_log_self (by norm_num) n

theorem pow_numBytes_le (n : Nat) (h : n ≠ 0) :
    256 ^ (numBytes n - 1) ≤ n := by
  rw [numBytes_eq_log, if_neg h]
  simpa using Nat.pow_log_le_self 256 h

theorem beBytes_length : ∀ (l n : Nat), (beBytes l n).length = l := by
  intro l
  induction l with
  | zero => intro n; rfl
  | succ k ih =>
    intro n
    show (beBytes k n).length + 1 = k + 1
    rw [ih n]

theorem beBytes_head_zero (l n : Nat) (h : n < 256 ^ l) :
    (beBytes (l + 1) n).head? = some 0 := by
  show some (n / 256 ^ l % 256) = some 0
  rw [Nat.div_eq_of_lt h]

theorem beBytes_head_ne_zero (n : Nat) (h : n ≠ 0) :
    (beBytes (numBytes n) n).head? ≠ some 0 := by
  have hk : numBytes n = (numBytes n - 1) + 1 := by
    have := (numBytes_eq_zero_iff n).not.mpr h
    omega
  rw [hk]
  show some (n / 256 ^ (numBytes n - 1) % 256) ≠ some 0
  have h1 : 256 ^ (numBytes n - 1) ≤ n := pow_numBytes_le n h
  have h2 : n < 256 ^ numBytes n := lt_pow_numBytes n
  have hppos : 0 < 256 ^ (numBytes n - 1) := Nat.pos_pow_of_pos _ (by norm_num)
  have hdiv1 : 1 ≤ n / 256 ^ (numBytes n - 1) :=
    (Nat.one_le_div_iff hppos).mpr h1
  have hdivlt : n / 256 ^ (numBytes n - 1) < 256 := by
    apply Nat.div_lt_of_lt_mul
    calc n < 256 ^ numBytes n := h2
      _ = 256 ^ (numBytes n - 1) * 256 := by
          rw [← pow_succ, ← hk]
  rw [Nat.mod_eq_of_lt hdivlt]
  intro hc
  have : n / 256 ^ (numBytes n - 1) = 0 := by
    exact Option.some.inj hc
  omega

end OpenSSLSpec

namespace OpenSSLSpec

/-- C2: the full `dh_derive` contract.  (1) Without both a local key
and a peer key the call fails.  (2) With both keys and a NULL output
pointer, `*keylen` is set to the exact shared-secret size (`DH_size`)
and the call succeeds without writing.  (3) A capacity below the
required size fails.  (4) Otherwise the secret is written, `*keylen` is
the number of bytes written, and the call succeeds — provided the
compute step itself succeeds (`ret > 0`), which the adapter checks.
(5) In particular, `derive(null, *outlen, 0)` right after a successful
`init` and `set_peer` sets `*outlen` to the positive value `DH_size`
and succeeds. -/
theorem dh_derive_contract :
    (∀ (pdhctx : PROV_DH_CTX) (kn : Bool) (o : Nat),
      pdhctx.dh = none ∨ pdhctx.dhpeer = none →
      dh_derive pdhctx kn o = { ret := 0, keylen := none, out := [] }) ∧
    (∀ (pdhctx : PROV_DH_CTX) (dh peer : DH) (o : Nat),
      pdhctx.dh = some dh → pdhctx.dhpeer = some peer →
      dh_derive pdhctx true o =
        { ret := 1, keylen := some (DH_size dh), out := [] }) ∧
    (∀ (pdhctx : PROV_DH_CTX) (dh peer : DH) (o : Nat),
      pdhctx.dh = some dh → pdhctx.dhpeer = some peer → o < DH_size dh →
      dh_derive pdhctx false o = { ret := 0, keylen := none, out := [] }) ∧
    (∀ (pdhctx : PROV_DH_CTX) (dh peer : DH) (o : Nat),
      pdhctx.dh = some dh → pdhctx.dhpeer = some peer → DH_size dh ≤ o →
      (if pdhctx.pad ≠ 0 then DH_compute_key_padded peer.pub dh
       else DH_compute_key peer.pub dh).1 ≠ 0 →
      dh_derive pdhctx false o =
        { ret := 1,
          keylen := some (if pdhctx.pad ≠ 0
            then DH_compute_key_padded peer.pub dh
            else DH_compute_key peer.pub dh).1,
          out := (if pdhctx.pad ≠ 0
            then DH_compute_key_padded peer.pub dh
            else DH_compute_key peer.pub dh).2 } ∧
      ((if pdhctx.pad ≠ 0 then DH_compute_key_padded peer.pub dh
        else DH_compute_key peer.pub dh).2).length =
        (if pdhctx.pad ≠ 0 then DH_compute_key_padded peer.pub dh
         else DH_compute_key peer.pub dh).1) ∧
    (∀ (c0 : PROV_DH_CTX) (dh peer : DH) (o : Nat), 0 < dh.p →
      (dh_init c0 (some dh)).2 = 1 ∧
      (dh_set_peer (dh_init c0 (some dh)).1 (some peer)).2 = 1 ∧
      0 < DH_size dh ∧
      dh_derive (dh_set_peer (dh_init c0 (some dh)).1 (some peer)).1
          true o =
        { ret := 1, keylen := some (DH_size dh), out := [] }) := by
  refine ⟨?_, ?_, ?_, ?_, ?_⟩
  · intro pdhctx kn o h
    rcases h with h | h
    · simp only [dh_derive, h]
    · cases hdh : pdhctx.dh <;> simp only [dh_derive, hdh, h]
  · intro pdhctx dh peer o h1 h2
    simp only [dh_derive, h1, h2]
    simp
  · intro pdhctx dh peer o h1 h2 ho
    simp only [dh_derive, h1, h2]
    rw [if_neg (by simp), if_pos ho]
  · intro pdhctx dh peer o h1 h2 ho hr
    constructor
    · simp only [dh_derive, h1, h2]
      rw [if_neg (by simp), if_neg (by omega : ¬ o < DH_size dh),
        if_neg hr]
    · by_cases hp : pdhctx.pad ≠ 0 <;>
        simp [hp, DH_compute_key, DH_compute_key_padded, beBytes_length]
  · intro c0 dh peer o hp
    refine ⟨rfl, rfl, ?_, ?_⟩
    · have := (numBytes_eq_zero_iff dh.p).not.mpr (by omega)
      have hpos : DH_size dh ≠ 0 := this
      exact Nat.pos_of_ne_zero hpos
    · simp only [dh_init, dh_set_peer, dh_derive]
      simp

/-- Witness for C2 with the concrete group p = 23, g = 5: the local key
has private exponent 6, the peer public value is 19, so the shared
secret is 19 ^ 6 mod 23 = 2 and `DH_size` is 1 byte.  All five
conjuncts of the contract are exercised. -/
theorem dh_derive_contract_witness :
    dh_derive { dh := none, dhpeer := none, pad := 0 } false 0 =
      { ret := 0, keylen := none, out := [] } ∧
    dh_derive
        { dh := some ⟨23, 5, 6, 8⟩, dhpeer := some ⟨23, 5, 15, 19⟩,
          pad := 0 } true 0 =
      { ret := 1, keylen := some 1, out := [] } ∧
    dh_derive
        { dh := some ⟨23, 5, 6, 8⟩, dhpeer := some ⟨23, 5, 15, 19⟩,
          pad := 0 } false 0 =
      { ret := 0, keylen := none, out := [] } ∧
    dh_derive
        { dh := some ⟨23, 5, 6, 8⟩, dhpeer := some ⟨23, 5, 15, 19⟩,
          pad := 0 } false 1 =
      { ret := 1, keylen := some 1, out := [2] } ∧
    dh_derive (dh_set_peer (dh_init dh_newctx (some ⟨23, 5, 6, 8⟩)).1
        (some ⟨23, 5, 15, 19⟩)).1 true 0 =
      { ret := 1, keylen := some 1, out := [] } := by
  refine ⟨?_, ?_, ?_, ?_, ?_⟩
  · exact dh_derive_contract.1 _ false 0 (Or.inl rfl)
  · exact dh_derive_contract.2.1 _ ⟨23, 5, 6, 8⟩ ⟨23, 5, 15, 19⟩ 0 rfl rfl
  · exact dh_derive_contract.2.2.1 _ ⟨23, 5, 6, 8⟩ ⟨23, 5, 15, 19⟩ 0 rfl rfl
      (by decide)
  · exact (dh_derive_contract.2.2.2.1 _ ⟨23, 5, 6, 8⟩ ⟨23, 5, 15, 19⟩ 1
      rfl rfl (by decide) (by decide)).1
  · exact (dh_derive_contract.2.2.2.2 dh_newctx ⟨23, 5, 6, 8⟩
      ⟨23, 5, 15, 19⟩ 0 (by decide)).2.2.2

end OpenSSLSpec

namespace OpenSSLSpec

/-- C8: the reconfigurable "pad" parameter controls the derive output
encoding.  (1) `dh_set_params` with a located "pad" entry stores its
integer value in the context and succeeds.  (2) With pad set (non-zero)
the output is the shared secret left-padded with zero bytes to the full
modulus size: `*outlen = DH_size`, the buffer is the `DH_size`-byte
big-endian encoding, and whenever the secret's natural encoding is
shorter the output starts with a 0x00 byte.  (3) With pad clear the
leading zero bytes are stripped: `*outlen` is the natural byte length,
which never exceeds — and may be shorter than — the modulus size, and
the first output byte is never 0x00. -/
theorem dh_pad_controls_output :
    (∀ (pdhctx : PROV_DH_CTX) (ps : List (String × Int))
        (q : String × Int),
      OSSL_PARAM_locate_const ps OSSL_EXCHANGE_PARAM_PAD = some q →
      dh_set_params pdhctx (some ps) = ({ pdhctx with pad := q.2 }, 1)) ∧
    (∀ (pdhctx : PROV_DH_CTX) (dh peer : DH) (o : Nat),
      pdhctx.dh = some dh → pdhctx.dhpeer = some peer →
      pdhctx.pad ≠ 0 → 0 < dh.p → DH_size dh ≤ o →
      dh_derive pdhctx false o =
        { ret := 1, keylen := some (DH_size dh),
          out := beBytes (DH_size dh) (sharedSecret peer.pub dh) } ∧
      (beBytes (DH_size dh) (sharedSecret peer.pub dh)).length =
        DH_size dh ∧
      (numBytes (sharedSecret peer.pub dh) < DH_size dh →
        (beBytes (DH_size dh) (sharedSecret peer.pub dh)).head? =
          some 0)) ∧
    (∀ (pdhctx : PROV_DH_CTX) (dh peer : DH) (o : Nat),
      pdhctx.dh = some dh → pdhctx.dhpeer = some peer →
      pdhctx.pad = 0 → 0 < dh.p → DH_size dh ≤ o →
      sharedSecret peer.pub dh ≠ 0 →
      dh_derive pdhctx false o =
        { ret := 1,
          keylen := some (numBytes (sharedSecret peer.pub dh)),
          out := beBytes (numBytes (sharedSecret peer.pub dh))
                   (sharedSecret peer.pub dh) } ∧
      numBytes (sharedSecret peer.pub dh) ≤ DH_size dh ∧
      (beBytes (numBytes (sharedSecret peer.pub dh))
        (sharedSecret peer.pub dh)).head? ≠ some 0) := by
  refine ⟨?_, ?_, ?_⟩
  · intro pdhctx ps q hq
    simp only [dh_set_params, hq]
  · intro pdhctx dh peer o h1 h2 hpad hp ho
    have hsz : DH_size dh ≠ 0 := (numBytes_eq_zero_iff dh.p).not.mpr (by omega)
    refine ⟨?_, beBytes_length _ _, ?_⟩
    · simp only [dh_derive, h1, h2]
      rw [if_neg (by simp), if_neg (by omega : ¬ o < DH_size dh),
        if_pos hpad]
      rw [if_neg (show ¬ (DH_compute_key_padded peer.pub dh).1 = 0 from
        hsz)]
      rfl
    · intro hshort
      have hk : DH_size dh = (DH_size dh - 1) + 1 := by omega
      rw [hk]
      apply beBytes_head_zero
      calc sharedSecret peer.pub dh
          < 256 ^ numBytes (sharedSecret peer.pub dh) := lt_pow_numBytes _
        _ ≤ 256 ^ (DH_size dh - 1) :=
            Nat.pow_le_pow_right (by norm_num) (by omega)
  · intro pdhctx dh peer o h1 h2 hpad hp ho hz
    have hnb : numBytes (sharedSecret peer.pub dh) ≠ 0 :=
      (numBytes_eq_zero_iff _).not.mpr hz
    refine ⟨?_, ?_, beBytes_head_ne_zero _ hz⟩
    · simp only [dh_derive, h1, h2]
      rw [if_neg (by simp), if_neg (by omega : ¬ o < DH_size dh),
        if_neg (show ¬ pdhctx.pad ≠ 0 by simp [hpad])]
      rw [if_neg (show ¬ (DH_compute_key peer.pub dh).1 = 0 from hnb)]
      rfl
    · have hlt : sharedSecret peer.pub dh < dh.p := Nat.mod_lt _ hp
      exact numBytes_mono _ _ (by omega)

/-- Witness for C8 with p = 257 (a two-byte modulus) and shared secret
5 (one byte): setting pad stores the parameter; with pad on, derive
returns two bytes starting 0x00; with pad off it returns the single
stripped byte — strictly shorter than the modulus size. -/
theorem dh_pad_controls_output_witness :
    dh_set_params dh_newctx (some [("pad", 1)]) =
      ({ dh := none, dhpeer := none, pad := 1 }, 1) ∧
    dh_derive
        { dh := some ⟨257, 3, 1, 7⟩, dhpeer := some ⟨257, 3, 9, 5⟩,
          pad := 1 } false 2 =
      { ret := 1, keylen := some 2, out := [0, 5] } ∧
    dh_derive
        { dh := some ⟨257, 3, 1, 7⟩, dhpeer := some ⟨257, 3, 9, 5⟩,
          pad := 0 } false 2 =
      { ret := 1, keylen := some 1, out := [5] } ∧
    (1 : Nat) < 2 := by
  refine ⟨?_, ?_, ?_, by decide⟩
  · exact dh_pad_controls_output.1 dh_newctx [("pad", 1)] ("pad", 1) rfl
  · exact (dh_pad_controls_output.2.1 _ ⟨257, 3, 1, 7⟩ ⟨257, 3, 9, 5⟩ 2
      rfl rfl (by decide) (by decide) (by decide)).1
  · exact (dh_pad_controls_output.2.2 _ ⟨257, 3, 1, 7⟩ ⟨257, 3, 9, 5⟩ 2
      rfl rfl rfl (by decide) (by decide) (by decide)).1

end OpenSSLSpec
